import Mathlib

/-!
Verification development for `rust_data_table` (binary `generate_json`).

The CLI layer is embedded from `src/bin/generate_json.rs`.  Rust `&str`
argument values are modelled byte-for-byte as `List Nat` (one entry per
byte), file paths as Lean `String`, and the file system as a partial map
from paths to byte contents.  The conversion engine
(`SurvivalData::from_file`, which lives in the library crate, not in the
binary) is abstracted as a function from file-system states to an optional
error together with the resulting file-system state.
-/

/-- Bytes of the Rust string literal `"\\t"` (a backslash followed by `t`),
the clap default value of the `--delimiter` argument. -/
def backslash_t : List Nat := [92, 116]

/-- Bytes of the string `tab`. -/
def tab_str : List Nat := [116, 97, 98]

/-- Bytes of the one-character string `,`. -/
def comma_str : List Nat := [44]

/-- Bytes of the string `comma`. -/
def comma_word : List Nat := [99, 111, 109, 109, 97]

/-- Delimiter resolution from `generate_json.rs` lines 67-72: the arms
`"\\t" | "tab"` give the tab byte 9, `"," | "comma"` give the comma
byte 44, any other one-byte string gives that byte, and anything else is
rejected (`anyhow::bail!`). -/
def parse_delimiter (s : List Nat) : Option Nat :=
  if s = backslash_t ∨ s = tab_str then some 9
  else if s = comma_str ∨ s = comma_word then some 44
  else
    match s with
    | [b] => some b
    | _ => none

/-- A file system: a path is mapped to the byte contents of the file at
that path, or to `none` when no such file exists. -/
def FS : Type := String → Option (List Nat)

/-- Error kinds of the conversion engine (spec section 7). -/
inductive EngineError where
  | ioError
  | malformedTable
  | malformedFactorFile
deriving DecidableEq

/-- The only failure `main` itself can produce: the `anyhow::bail!` on an
unrecognised delimiter string. -/
inductive DelimError where
  | invalidDelimiter (s : List Nat)
deriving DecidableEq

/-- An abstract conversion engine, standing for `SurvivalData::from_file`:
given the current file system it reports an optional error and the file
system after whatever it wrote. -/
def Engine : Type := FS → Option EngineError × FS

/-- Everything observable about one run of `main`: the process result, the
final file system, the resolved delimiter byte (`none` when the run bailed
on the delimiter), whether the engine was invoked, the error the engine
reported if it was invoked and failed, and whether the final
`JSON successfully written` message was printed. -/
structure RunOutcome where
  result : Except DelimError Unit
  fs : FS
  delim : Option Nat
  engineCalled : Bool
  engineError : Option EngineError
  printedSuccess : Bool

/-- Embedding of `fn main` from `src/bin/generate_json.rs`.
`delimArg` is the `--delimiter` argument (`none` means absent, so clap
supplies the default `"\\t"`), `factorsArg` the `--factors-file` argument,
`engine` stands for `SurvivalData::from_file`, and `fs` is the file system
at the start of the run.  Mirrors the source order: resolve the delimiter
(bailing on an invalid one), default the factors path to `factors.tsv`,
return `Ok(())` at once when that path exists, otherwise call the engine,
discard its result, print the success message and return `Ok(())`. -/
def main_run (delimArg : Option (List Nat)) (factorsArg : Option String)
    (engine : Engine) (fs : FS) : RunOutcome :=
  let dstr := delimArg.getD backslash_t
  match parse_delimiter dstr with
  | none => ⟨Except.error (DelimError.invalidDelimiter dstr), fs, none, false, none, false⟩
  | some d =>
    let factors_file := factorsArg.getD "factors.tsv"
    if (fs factors_file).isSome then
      ⟨Except.ok (), fs, some d, false, none, false⟩
    else
      let r := engine fs
      ⟨Except.ok (), r.2, some d, true, r.1, true⟩

/-- A file system holding no files at all. -/
def fs_empty : FS := fun _ => none

/-- A file system in which exactly the path `factors.tsv` exists. -/
def fs_factors : FS := fun p => if p = "factors.tsv" then some [104, 105] else none

/-- An engine run that fails with an I/O error and writes nothing,
standing for `SurvivalData::from_file` on an unreadable input file. -/
def engine_fail : Engine := fun fs => (some EngineError.ioError, fs)

/-- An engine run that succeeds and writes nothing. -/
def engine_noop : Engine := fun fs => (none, fs)

/-- Bytes of the two-character string `ab`, an invalid delimiter. -/
def delim_ab : List Nat := [97, 98]

/-- Bytes of the two-character string `xy`, an invalid delimiter. -/
def delim_xy : List Nat := [120, 121]

/-- C1. When the engine reports an error, `main` swallows it: the process
result is still `Ok(())` and the success message is printed.  Evaluated at
a concrete failing run: default delimiter, default factors path, no
pre-existing side file, and an engine run that fails with an I/O error.
The result component equals the one of a plain successful run, so the
failure is not surfaced as a distinct outcome. -/
theorem swallowed_engine_error :
    main_run none none engine_fail fs_empty =
      ⟨Except.ok (), fs_empty, some 9, true, some EngineError.ioError, true⟩ := by
  rfl

/-- C2 counterexample. The claim as stated fails: with an invalid
delimiter argument (`ab`) the program bails with an error before reaching
the existence gate, so an invocation whose configured side-file path
already exists does not terminate with a no-op success. -/
theorem side_file_gate_cex :
    (fs_factors "factors.tsv").isSome = true ∧
    (main_run (some delim_ab) none engine_noop fs_factors).result =
      Except.error (DelimError.invalidDelimiter delim_ab) ∧
    (main_run (some delim_ab) none engine_noop fs_factors).engineCalled = false := by
  exact ⟨rfl, rfl, rfl⟩

/-- C2 (amended). For every invocation with a valid delimiter whose
configured side-file path already exists, `main` returns `Ok(())` before
calling the engine, and the whole file system — in particular the side
file — is left untouched; consequently a second run on the file system
produced by such a run again changes nothing. -/
theorem side_file_gate_noop (delimArg : Option (List Nat)) (factorsArg : Option String)
    (engine : Engine) (fs : FS) (d : Nat)
    (hd : parse_delimiter (delimArg.getD backslash_t) = some d)
    (hex : (fs (factorsArg.getD "factors.tsv")).isSome = true) :
    main_run delimArg factorsArg engine fs = ⟨Except.ok (), fs, some d, false, none, false⟩ ∧
    main_run delimArg factorsArg engine
        ((main_run delimArg factorsArg engine fs).fs) =
      main_run delimArg factorsArg engine fs := by
  have h1 : main_run delimArg factorsArg engine fs =
      ⟨Except.ok (), fs, some d, false, none, false⟩ := by
    simp only [main_run, hd]
    simp only [hex, if_true]
  refine ⟨h1, ?_⟩
  rw [h1]
  exact h1

/-- C2 witness: concrete run with the default delimiter and an existing
`factors.tsv`. -/
theorem side_file_gate_noop_witness :
    parse_delimiter ((none : Option (List Nat)).getD backslash_t) = some 9 ∧
    (fs_factors ((none : Option String).getD "factors.tsv")).isSome = true ∧
    (main_run none none engine_noop fs_factors =
        ⟨Except.ok (), fs_factors, some 9, false, none, false⟩ ∧
      main_run none none engine_noop ((main_run none none engine_noop fs_factors).fs) =
        main_run none none engine_noop fs_factors) :=
  ⟨rfl, rfl, side_file_gate_noop none none engine_noop fs_factors 9 rfl rfl⟩

/-- C10 counterexample. The claim as stated fails: with the invalid
delimiter argument `xy` and no factors-file argument, the program exits
with an error even though `factors.tsv` exists, because the delimiter is
resolved (and the bail taken) before the existence gate. -/
theorem default_factors_cex :
    (fs_factors "factors.tsv").isSome = true ∧
    (main_run (some delim_xy) none engine_fail fs_factors).result =
      Except.error (DelimError.invalidDelimiter delim_xy) := by
  exact ⟨rfl, rfl⟩

/-- C10 (amended). When no factors-file argument is supplied and the
delimiter (given or defaulted) is valid, the gate tests the fixed path
`factors.tsv`: if that file exists the run returns `Ok(())` without
calling the engine (hence without reading the input file) and without
touching the file system. -/
theorem default_factors_path_gate (delimArg : Option (List Nat)) (engine : Engine)
    (fs : FS) (d : Nat)
    (hd : parse_delimiter (delimArg.getD backslash_t) = some d)
    (hex : (fs "factors.tsv").isSome = true) :
    main_run delimArg none engine fs = ⟨Except.ok (), fs, some d, false, none, false⟩ := by
  simp only [main_run, hd, Option.getD_none]
  simp only [hex, if_true]

/-- C10 witness: concrete run with delimiter argument `tab`, no
factors-file argument, and an existing `factors.tsv`. -/
theorem default_factors_path_gate_witness :
    parse_delimiter ((some tab_str).getD backslash_t) = some 9 ∧
    (fs_factors "factors.tsv").isSome = true ∧
    main_run (some tab_str) none engine_fail fs_factors =
      ⟨Except.ok (), fs_factors, some 9, false, none, false⟩ :=
  ⟨rfl, rfl, default_factors_path_gate (some tab_str) engine_fail fs_factors 9 rfl rfl⟩

set_option maxRecDepth 4096 in
/-- C9. Delimiter selection: the default argument (absent, so clap
supplies the two-byte string backslash-`t`) resolves to the tab byte 9, as
do the literal strings backslash-`t` and `tab`; `,` and `comma` resolve to
the comma byte 44; every other one-byte string resolves to that byte
itself (checked for all 256 byte values); and for every delimiter string
the code rejects, the run fails with the invalid-delimiter error before
the engine is called and before anything is written. -/
theorem delimiter_selection (s : List Nat) (factorsArg : Option String)
    (engine : Engine) (fs : FS)
    (hinvalid : parse_delimiter s = none) :
    parse_delimiter ((none : Option (List Nat)).getD backslash_t) = some 9 ∧
    parse_delimiter tab_str = some 9 ∧
    parse_delimiter comma_str = some 44 ∧
    parse_delimiter comma_word = some 44 ∧
    ((List.range 256).all fun b =>
        decide (parse_delimiter [b] = some b ∨ [b] = backslash_t ∨ [b] = tab_str ∨
          [b] = comma_str ∨ [b] = comma_word)) = true ∧
    (main_run (some s) factorsArg engine fs).result =
      Except.error (DelimError.invalidDelimiter s) ∧
    (main_run (some s) factorsArg engine fs).engineCalled = false ∧
    (main_run (some s) factorsArg engine fs).fs = fs := by
  refine ⟨rfl, rfl, rfl, rfl, by decide, ?_, ?_, ?_⟩ <;>
    simp only [main_run, Option.getD_some, hinvalid]

/-- C9 witness: the two-byte string `ab` is rejected, and a concrete run
with it fails before the engine while everything else of the claim holds
concretely. -/
theorem delimiter_selection_witness :
    parse_delimiter delim_ab = none ∧
    (parse_delimiter ((none : Option (List Nat)).getD backslash_t) = some 9 ∧
      parse_delimiter tab_str = some 9 ∧
      parse_delimiter comma_str = some 44 ∧
      parse_delimiter comma_word = some 44 ∧
      ((List.range 256).all fun b =>
          decide (parse_delimiter [b] = some b ∨ [b] = backslash_t ∨ [b] = tab_str ∨
            [b] = comma_str ∨ [b] = comma_word)) = true ∧
      (main_run (some delim_ab) none engine_noop fs_empty).result =
        Except.error (DelimError.invalidDelimiter delim_ab) ∧
      (main_run (some delim_ab) none engine_noop fs_empty).engineCalled = false ∧
      (main_run (some delim_ab) none engine_noop fs_empty).fs = fs_empty) :=
  ⟨rfl, delimiter_selection delim_ab none engine_noop fs_empty rfl⟩

/-!
Engine components.  The library crate holding `SurvivalData` is not part
of the sources; the components below are modelled from the spec, as their
doc comments record, and the engine claims are settled against these
models.
-/

/-- Modelled from the spec (section 3): the per-column classification of
the missing library component TypeInferencer. -/
inductive ColumnKind where
  | Numeric
  | Categorical
deriving DecidableEq

/-- Modelled from the spec (section 4.2): the TypeInferencer of the
missing library component.  A column whose name is in the forced set is
Categorical unconditionally; a column of all-missing cells is Categorical
(the spec's documented edge-case policy); otherwise the column is Numeric
when every non-missing cell parses as a floating-point number, else
Categorical.  Missing means the empty string; `parses` stands for the
floating-point parse check. -/
def infer_kind (parses : String → Bool) (forced : List String)
    (name : String) (cells : List String) : ColumnKind :=
  if forced.contains name then ColumnKind.Categorical
  else if cells.all fun c => c == "" then ColumnKind.Categorical
  else if cells.all fun c => c == "" || parses c then ColumnKind.Numeric
  else ColumnKind.Categorical

/-- C4 counterexample. A column of two missing cells, not forced: every
non-missing cell (there are none) parses, yet the inferencer classifies
the column Categorical by the spec's all-missing edge case, so the
claimed iff fails. -/
theorem infer_kind_all_missing_cex :
    (([] : List String).contains "x") = false ∧
    ((["", ""]).all fun c => c == "" || false) = true ∧
    infer_kind (fun _ => false) [] "x" ["", ""] = ColumnKind.Categorical := by
  exact ⟨rfl, rfl, rfl⟩

/-- C4 (amended). Complete characterization of the inferencer: a column
is classified Numeric exactly when its name is not forced, it has at
least one non-missing cell, and every non-missing cell parses as a
floating-point number.  In particular a forced column is Categorical
regardless of content. -/
theorem infer_kind_characterization (parses : String → Bool) (forced : List String)
    (name : String) (cells : List String) :
    infer_kind parses forced name cells = ColumnKind.Numeric ↔
      (forced.contains name = false ∧
        (cells.all fun c => c == "") = false ∧
        (cells.all fun c => c == "" || parses c) = true) := by
  unfold infer_kind
  cases h1 : forced.contains name <;>
    cases h2 : cells.all fun c => c == "" <;>
      cases h3 : cells.all fun c => c == "" || parses c <;>
        simp [h1, h2, h3]

/-- Modelled from the spec (section 3): the FactorTable of one Categorical
column of the missing library component — the ordered level list and the
level-to-code association list. -/
structure FactorTable where
  levels : List String
  codes : List (String × Nat)
deriving DecidableEq

/-- Modelled from the spec (section 4.3): one step of the FactorBuilder
scan.  A missing (empty) cell and an already-seen level leave the table
unchanged; a new level is appended and receives the next code, i.e. the
number of levels discovered so far. -/
def addCell (ft : FactorTable) (c : String) : FactorTable :=
  if c = "" then ft
  else if c ∈ ft.levels then ft
  else ⟨ft.levels ++ [c], ft.codes ++ [(c, ft.levels.length)]⟩

/-- Modelled from the spec (section 4.3): the FactorBuilder scans the
cells of a Categorical column in row order, starting from the empty
table. -/
def buildFactor (cells : List String) : FactorTable :=
  cells.foldl addCell ⟨[], []⟩

/-- The distinct values of a list in order of first occurrence: keep the
head, drop its later duplicates, recurse.  A direct transcription of the
claim's characterization, independent of the builder's scan. -/
def distinct_first : List String → List String
  | [] => []
  | c :: rest => c :: distinct_first (rest.filter fun d => !(decide (d = c)))
termination_by l => l.length
decreasing_by
  simp only [List.length_cons]
  exact Nat.lt_succ_of_le (List.length_filter_le _ _)

/-- The values of `cells` that are non-missing, unseen, and new in the
scan order — the levels the builder will append after having already seen
`seen`. -/
def distinct_new (seen : List String) : List String → List String
  | [] => []
  | c :: rest =>
    if c = "" ∨ c ∈ seen then distinct_new seen rest
    else c :: distinct_new (seen ++ [c]) rest

lemma addCell_missing (ft : FactorTable) : addCell ft "" = ft := by
  simp [addCell]

lemma addCell_seen (ft : FactorTable) (c : String) (h : c ∈ ft.levels) :
    addCell ft c = ft := by
  simp [addCell, h]

lemma addCell_new (ft : FactorTable) (c : String) (hc : ¬ c = "")
    (h : ¬ c ∈ ft.levels) :
    addCell ft c = ⟨ft.levels ++ [c], ft.codes ++ [(c, ft.levels.length)]⟩ := by
  simp [addCell, hc, h]

lemma foldl_addCell_spec (cells : List String) :
    ∀ ft : FactorTable, ft.levels.Nodup →
      ft.codes = ft.levels.zip (List.range ft.levels.length) →
      (cells.foldl addCell ft).levels = ft.levels ++ distinct_new ft.levels cells ∧
      (cells.foldl addCell ft).levels.Nodup ∧
      (cells.foldl addCell ft).codes =
        (cells.foldl addCell ft).levels.zip
          (List.range (cells.foldl addCell ft).levels.length) := by
  induction cells with
  | nil =>
    intro ft hnd hcodes
    simp [distinct_new, hnd, hcodes]
  | cons c rest ih =>
    intro ft hnd hcodes
    by_cases hc : c = ""
    · subst hc
      have h := ih ft hnd hcodes
      simpa [distinct_new, addCell_missing] using h
    · by_cases hmem : c ∈ ft.levels
      · have h := ih ft hnd hcodes
        simpa [distinct_new, hc, hmem, addCell_seen ft c hmem] using h
      · have hstep : addCell ft c =
            ⟨ft.levels ++ [c], ft.codes ++ [(c, ft.levels.length)]⟩ :=
          addCell_new ft c hc hmem
        have hnd' : (ft.levels ++ [c]).Nodup := by
          simp [List.nodup_append, hnd, hmem]
        have hcodes' : ft.codes ++ [(c, ft.levels.length)] =
            (ft.levels ++ [c]).zip (List.range (ft.levels ++ [c]).length) := by
          rw [hcodes]
          rw [List.length_append, List.length_singleton, List.range_succ]
          rw [List.zip_append (by simp)]
          rfl
        have h := ih ⟨ft.levels ++ [c], ft.codes ++ [(c, ft.levels.length)]⟩ hnd' hcodes'
        rw [List.foldl_cons, hstep]
        refine ⟨?_, h.2.1, h.2.2⟩
        rw [h.1]
        simp [distinct_new, hc, hmem]

lemma distinct_new_eq (cells : List String) :
    ∀ seen : List String,
      distinct_new seen cells =
        distinct_first
          (cells.filter fun c => !(decide (c = "")) && !(decide (c ∈ seen))) := by
  induction cells with
  | nil => intro seen; simp [distinct_new, distinct_first]
  | cons c rest ih =>
    intro seen
    by_cases h : c = "" ∨ c ∈ seen
    · have hpred : (!(decide (c = "")) && !(decide (c ∈ seen))) = false := by
        rcases h with h | h <;> simp [h]
      rw [distinct_new]
      rw [if_pos h, List.filter_cons_of_neg (by simp [hpred]), ih seen]
    · push_neg at h
      have hpred : (!(decide (c = "")) && !(decide (c ∈ seen))) = true := by
        simp [h.1, h.2]
      rw [distinct_new, if_neg (by tauto)]
      rw [List.filter_cons_of_pos (by simp [hpred])]
      rw [distinct_first, ih (seen ++ [c])]
      congr 1
      rw [List.filter_filter]
      congr 1
      apply List.filter_congr
      intro d _
      by_cases hd1 : d = "" <;> by_cases hd2 : d ∈ seen <;> by_cases hd3 : d = c <;>
        simp [hd1, hd2, hd3, List.mem_append]

/-- C3. Characterization of the FactorBuilder on any column: the level
list is exactly the distinct non-missing cell values in order of first
occurrence, the level list has no duplicates, and the code association
list pairs the levels, in discovery order, with the contiguous codes
`0, 1, ..., levels.length - 1` — a gap-free, duplicate-free bijection
from the levels onto `List.range levels.length`. -/
theorem factor_table_levels_codes (cells : List String) :
    (buildFactor cells).levels =
      distinct_first (cells.filter fun c => !(decide (c = ""))) ∧
    (buildFactor cells).levels.Nodup ∧
    (buildFactor cells).codes =
      (buildFactor cells).levels.zip
        (List.range (buildFactor cells).levels.length) := by
  have h := foldl_addCell_spec cells ⟨[], []⟩ (by simp) (by simp)
  have hlev : (buildFactor cells).levels = distinct_new [] cells := by
    simpa [buildFactor] using h.1
  refine ⟨?_, by simpa [buildFactor] using h.2.1, by simpa [buildFactor] using h.2.2⟩
  rw [hlev, distinct_new_eq cells []]
  congr 1
  apply List.filter_congr
  intro d _
  simp

/-- C7. The FactorBuilder is deterministic: it is a pure sequential left
fold over the cells, so two runs on the same column contents in the same
order produce the same FactorTable — same levels in the same order and
the same level-to-code association. -/
theorem build_factor_deterministic (cells₁ cells₂ : List String)
    (h : cells₁ = cells₂) : buildFactor cells₁ = buildFactor cells₂ := by
  rw [h]

/-- C7 witness: two runs on the concrete column `A, B, A, missing, C`. -/
theorem build_factor_deterministic_witness :
    (["A", "B", "A", "", "C"]) = (["A", "B", "A", "", "C"]) ∧
    buildFactor ["A", "B", "A", "", "C"] = buildFactor ["A", "B", "A", "", "C"] :=
  ⟨rfl, build_factor_deterministic _ _ rfl⟩

/-- Modelled from the spec (sections 4.1 and 7): the error kinds the
TableReader can report.  `malformedTable` carries the offending row
number; rows are numbered from 1 in file order with the header as row 1,
so the first data row is row 2. -/
inductive TableError where
  | ioError (path : String)
  | malformedTable (row : Nat)
deriving DecidableEq

/-- Modelled from the spec (section 3): the in-memory table — the header
(the column names) and the data rows of raw string cells. -/
structure Table where
  header : List String
  rows : List (List String)
deriving DecidableEq

/-- Modelled from the spec (section 4.1): the rectangularity check.
`hlen` is the header's field count and `idx` the file row number of the
first row of the remaining list; the first row whose field count differs
from the header is reported. -/
def check_rows (hlen : Nat) : Nat → List (List String) → Except TableError Unit
  | _, [] => Except.ok ()
  | idx, r :: rest =>
    if r.length = hlen then check_rows hlen (idx + 1) rest
    else Except.error (TableError.malformedTable idx)

/-- Modelled from the spec (section 4.1): the TableReader on a file whose
lines have already been split at the delimiter.  An empty file is
malformed; otherwise the first line is the header and every data row must
have the header's field count. -/
def read_table : List (List String) → Except TableError Table
  | [] => Except.error (TableError.malformedTable 0)
  | header :: body =>
    match check_rows header.length 2 body with
    | Except.ok _ => Except.ok ⟨header, body⟩
    | Except.error e => Except.error e

/-- The index (0-based, within the data rows) of the first row whose
field count differs from `hlen`. -/
def first_bad_row (hlen : Nat) : List (List String) → Nat
  | [] => 0
  | r :: rest => if r.length = hlen then first_bad_row hlen rest + 1 else 0

lemma check_rows_err (hlen : Nat) :
    ∀ (body : List (List String)) (k i : Nat), i < body.length →
      ((body.getD i []).length = hlen → False) →
      check_rows hlen k body =
        Except.error (TableError.malformedTable (k + first_bad_row hlen body)) ∧
      first_bad_row hlen body < body.length ∧
      (((body.getD (first_bad_row hlen body) []).length == hlen) = false) := by
  intro body
  induction body with
  | nil =>
    intro k i hi _
    exact absurd hi (by simp)
  | cons r rest ih =>
    intro k i hi hbad
    by_cases hr : r.length = hlen
    · have hi0 : i ≠ 0 := by
        intro h0
        subst h0
        exact hbad (by simpa using hr)
      obtain ⟨j, rfl⟩ : ∃ j, i = j + 1 :=
        ⟨i - 1, (Nat.succ_pred_eq_of_pos (Nat.pos_of_ne_zero hi0)).symm⟩
      have hj : j < rest.length := by simpa [Nat.succ_lt_succ_iff] using hi
      have hbad' : (rest.getD j []).length = hlen → False := by
        simpa using hbad
      have hfb : first_bad_row hlen (r :: rest) = first_bad_row hlen rest + 1 := by
        rw [first_bad_row, if_pos hr]
      have h := ih (k + 1) j hj hbad'
      refine ⟨?_, ?_, ?_⟩
      · rw [check_rows, if_pos hr, h.1, hfb]
        congr 2
        omega
      · rw [hfb]
        simpa [Nat.succ_lt_succ_iff] using h.2.1
      · rw [hfb]
        simpa using h.2.2
    · have hfb : first_bad_row hlen (r :: rest) = 0 := by
        rw [first_bad_row, if_neg hr]
      refine ⟨?_, ?_, ?_⟩
      · rw [check_rows, if_neg hr, hfb]
        simp
      · rw [hfb]
        simp
      · rw [hfb]
        simp only [List.getD_cons_zero]
        simpa using hr

/-- C6. Ragged-row rejection: if any data row's field count differs from
the header's, the reader rejects the input with `MalformedTableError`
naming the first offending row (file row numbers count the header as
row 1), and the named row indeed has a field count different from the
header's. -/
theorem read_table_ragged (header : List String) (body : List (List String))
    (i : Nat) (hi : i < body.length)
    (hne : ((body.getD i []).length == header.length) = false) :
    read_table (header :: body) =
      Except.error
        (TableError.malformedTable (first_bad_row header.length body + 2)) ∧
    first_bad_row header.length body < body.length ∧
    (((body.getD (first_bad_row header.length body) []).length == header.length)
      = false) := by
  have hbad : (body.getD i []).length = header.length → False := by
    intro h
    rw [h] at hne
    simp at hne
  have h := check_rows_err header.length body 2 i hi hbad
  refine ⟨?_, h.2.1, h.2.2⟩
  have hcomm : first_bad_row header.length body + 2 =
      2 + first_bad_row header.length body := Nat.add_comm _ _
  rw [read_table, hcomm, h.1]

/-- C6 witness: the header has two fields and the first data row only
one, so the reader reports file row 2 as malformed. -/
theorem read_table_ragged_witness :
    (0 < [["x"], ["y", "z"]].length ∧
      ((([["x"], ["y", "z"]].getD 0 []).length == ["a", "b"].length) = false)) ∧
    (read_table [["a", "b"], ["x"], ["y", "z"]] =
        Except.error
          (TableError.malformedTable
            (first_bad_row ["a", "b"].length [["x"], ["y", "z"]] + 2)) ∧
      first_bad_row ["a", "b"].length [["x"], ["y", "z"]] < [["x"], ["y", "z"]].length ∧
      ((([["x"], ["y", "z"]].getD
            (first_bad_row ["a", "b"].length [["x"], ["y", "z"]]) []).length ==
          ["a", "b"].length) = false)) :=
  ⟨⟨by decide, by decide⟩,
    read_table_ragged ["a", "b"] [["x"], ["y", "z"]] 0 (by decide) (by decide)⟩

/-- Modelled from the spec (section 3): the per-column payload of the
final Document.  Numeric values are IEEE-754 doubles carried as their
64-bit patterns (`Nat`), so bit-for-bit value equality is `Nat` equality;
a Categorical column carries its integer code sequence (`Int`, with the
reserved sentinel `-1` for missing cells) and its FactorTable. -/
inductive ColumnData where
  | numeric (vals : List Nat)
  | categorical (codes : List Int) (ft : FactorTable)
deriving DecidableEq

/-- Modelled from the spec (section 3): the final Document — the single
top-level row count and, per column in table order, the column's
payload. -/
structure Document where
  rowCount : Nat
  columns : List (String × ColumnData)
deriving DecidableEq

/-- The length of a column's value sequence: the numeric values for a
Numeric column, the integer codes for a Categorical one. -/
def colLen : ColumnData → Nat
  | ColumnData.numeric vs => vs.length
  | ColumnData.categorical cs _ => cs.length

/-- Modelled from the spec (section 4.3): the code of one cell under a
FactorTable; a missing cell (or any value outside the table) gets the
reserved sentinel code `-1`. -/
def codeOf (ft : FactorTable) (c : String) : Int :=
  match ft.codes.lookup c with
  | some k => (k : Int)
  | none => -1

/-- Modelled from the spec (section 4.5): the assembler's failure when a
column's value sequence does not match the top-level row count. -/
inductive AssembleError where
  | rowCountMismatch
deriving DecidableEq

/-- Modelled from the spec (section 4.5): the DocumentAssembler.
`parseVal` stands for floating-point parsing to a 64-bit pattern and
`kinds` for the inferred per-column kinds; each column is encoded by its
kind, and the row-count invariant is checked before the document is
released for emission. -/
def assemble (parseVal : String → Nat) (kinds : String → ColumnKind)
    (cols : List (String × List String)) (nrows : Nat) :
    Except AssembleError Document :=
  let doc : Document := ⟨nrows, cols.map fun p =>
    (p.1, match kinds p.1 with
      | ColumnKind.Numeric => ColumnData.numeric (p.2.map parseVal)
      | ColumnKind.Categorical =>
          ColumnData.categorical (p.2.map (codeOf (buildFactor p.2)))
            (buildFactor p.2))⟩
  if doc.columns.all fun p => colLen p.2 == doc.rowCount then Except.ok doc
  else Except.error AssembleError.rowCountMismatch

/-- C8. Every Document the assembler releases for emission satisfies the
row-count invariant: each column's value-sequence length equals the
top-level row count, and that row count is the table's row count. -/
theorem assemble_row_count_invariant (parseVal : String → Nat)
    (kinds : String → ColumnKind) (cols : List (String × List String))
    (nrows : Nat) (d : Document)
    (h : assemble parseVal kinds cols nrows = Except.ok d) :
    (d.columns.all fun p => colLen p.2 == d.rowCount) = true ∧
    d.rowCount = nrows := by
  simp only [assemble] at h
  split at h
  case isTrue hc =>
    injection h with h
    subst h
    exact ⟨hc, rfl⟩
  case isFalse hc =>
    exact Except.noConfusion h

/-- A trivial stand-in for floating-point parsing in concrete runs. -/
def parse_val0 : String → Nat := fun _ => 0

/-- Concrete kinds: `cluster` is Categorical, everything else Numeric. -/
def kinds0 : String → ColumnKind :=
  fun n => if n = "cluster" then ColumnKind.Categorical else ColumnKind.Numeric

/-- The spec's concrete scenario table, column-oriented. -/
def cols0 : List (String × List String) :=
  [("id", ["1", "2", "3"]), ("cluster", ["A", "B", "A"]),
   ("score", ["0.5", "1.5", "2.5"])]

/-- The Document the assembler produces on `cols0`. -/
def doc0 : Document :=
  ⟨3, [("id", ColumnData.numeric [0, 0, 0]),
       ("cluster", ColumnData.categorical [0, 1, 0] ⟨["A", "B"], [("A", 0), ("B", 1)]⟩),
       ("score", ColumnData.numeric [0, 0, 0])]⟩

/-- C8 witness: the assembler succeeds on the concrete three-column,
three-row table and the released document satisfies the invariant. -/
theorem assemble_row_count_invariant_witness :
    assemble parse_val0 kinds0 cols0 3 = Except.ok doc0 ∧
    ((doc0.columns.all fun p => colLen p.2 == doc0.rowCount) = true ∧
      doc0.rowCount = 3) :=
  ⟨rfl, assemble_row_count_invariant parse_val0 kinds0 cols0 3 doc0 rfl⟩

/-- Modelled from the spec (section 4.6): the JSON value tree the emitter
produces.  Rendering the tree to text and lexing it back is the serde
layer; the schema and all values live in this tree.  Numbers are `Int`:
a numeric cell's 64-bit pattern and a row count are embedded via
`Int.ofNat`, a factor code directly. -/
inductive Json where
  | jnum (n : Int)
  | jstr (s : String)
  | jarr (xs : List Json)
  | jobj (fields : List (String × Json))

/-- Modelled from the spec (section 4.6): emission of one FactorTable —
its level list and its level-to-code pairs. -/
def emitFactorTable (ft : FactorTable) : Json :=
  Json.jobj
    [("levels", Json.jarr (ft.levels.map Json.jstr)),
     ("codes", Json.jarr (ft.codes.map fun p =>
        Json.jarr [Json.jstr p.1, Json.jnum (Int.ofNat p.2)]))]

/-- Modelled from the spec (section 4.6): emission of one column as
`{kind, kind-specific payload}`. -/
def emitColumn : ColumnData → Json
  | ColumnData.numeric vs =>
      Json.jobj
        [("kind", Json.jstr "numeric"),
         ("values", Json.jarr (vs.map fun v => Json.jnum (Int.ofNat v)))]
  | ColumnData.categorical cs ft =>
      Json.jobj
        [("kind", Json.jstr "categorical"),
         ("codes", Json.jarr (cs.map Json.jnum)),
         ("factor", emitFactorTable ft)]

/-- Modelled from the spec (section 4.6): the JsonEmitter — the top-level
row count and the mapping from column name to emitted column. -/
def emitDocument (d : Document) : Json :=
  Json.jobj
    [("rows", Json.jnum (Int.ofNat d.rowCount)),
     ("columns", Json.jobj (d.columns.map fun p => (p.1, emitColumn p.2)))]

/-- Decoder for a JSON string. -/
def asString : Json → Option String
  | Json.jstr s => some s
  | _ => none

/-- Decoder for a JSON number holding a non-negative integer. -/
def asNat : Json → Option Nat
  | Json.jnum (Int.ofNat n) => some n
  | _ => none

/-- Decoder for a JSON number. -/
def asInt : Json → Option Int
  | Json.jnum n => some n
  | _ => none

/-- Decode every element of a JSON list, failing when any element
fails. -/
def decodeList {α : Type} (g : Json → Option α) : List Json → Option (List α)
  | [] => some []
  | j :: js =>
    match g j, decodeList g js with
    | some a, some t => some (a :: t)
    | _, _ => none

/-- Decoder for one level-to-code pair. -/
def decodeCodePair : Json → Option (String × Nat)
  | Json.jarr [Json.jstr s, Json.jnum (Int.ofNat k)] => some (s, k)
  | _ => none

/-- Re-parse a FactorTable from the emitted schema. -/
def parseFactorTable : Json → Option FactorTable
  | Json.jobj [("levels", Json.jarr ls), ("codes", Json.jarr cs)] =>
    (match decodeList asString ls, decodeList decodeCodePair cs with
     | some levels, some codes => some ⟨levels, codes⟩
     | _, _ => none)
  | _ => none

/-- Re-parse one column from the emitted schema. -/
def parseColumn : Json → Option ColumnData
  | Json.jobj [("kind", Json.jstr "numeric"), ("values", Json.jarr vs)] =>
    (match decodeList asNat vs with
     | some vals => some (ColumnData.numeric vals)
     | none => none)
  | Json.jobj [("kind", Json.jstr "categorical"), ("codes", Json.jarr cs),
               ("factor", ftj)] =>
    (match decodeList asInt cs, parseFactorTable ftj with
     | some codes, some ft => some (ColumnData.categorical codes ft)
     | _, _ => none)
  | _ => none

/-- Decode the name-to-column mapping, failing when any column fails. -/
def decodeColumns : List (String × Json) → Option (List (String × ColumnData))
  | [] => some []
  | p :: ps =>
    (match parseColumn p.2, decodeColumns ps with
     | some c, some t => some ((p.1, c) :: t)
     | _, _ => none)

/-- Re-parse a whole Document from the emitted schema. -/
def parseDocument : Json → Option Document
  | Json.jobj [("rows", Json.jnum (Int.ofNat n)), ("columns", Json.jobj colsj)] =>
    (match decodeColumns colsj with
     | some cols => some ⟨n, cols⟩
     | none => none)
  | _ => none

lemma decodeList_map {α : Type} (f : α → Json) (g : Json → Option α)
    (h : ∀ a, g (f a) = some a) :
    ∀ l : List α, decodeList g (l.map f) = some l := by
  intro l
  induction l with
  | nil => rfl
  | cons a t ih => rw [List.map_cons, decodeList, h, ih]

lemma parseFactorTable_emit (ft : FactorTable) :
    parseFactorTable (emitFactorTable ft) = some ft := by
  rw [emitFactorTable, parseFactorTable]
  rw [decodeList_map Json.jstr asString fun a => rfl]
  rw [decodeList_map
      (fun p : String × Nat => Json.jarr [Json.jstr p.1, Json.jnum (Int.ofNat p.2)])
      decodeCodePair fun p => rfl]

lemma parseColumn_emit (c : ColumnData) :
    parseColumn (emitColumn c) = some c := by
  cases c with
  | numeric vs =>
    rw [emitColumn, parseColumn]
    rw [decodeList_map (fun v : Nat => Json.jnum (Int.ofNat v)) asNat fun v => rfl]
  | categorical cs ft =>
    rw [emitColumn, parseColumn]
    rw [decodeList_map Json.jnum asInt fun k => rfl, parseFactorTable_emit]

lemma decodeColumns_emit (cols : List (String × ColumnData)) :
    decodeColumns (cols.map fun p => (p.1, emitColumn p.2)) = some cols := by
  induction cols with
  | nil => rfl
  | cons p ps ih =>
    rw [List.map_cons, decodeColumns]
    rw [parseColumn_emit, ih]

/-- C5. Round trip: re-parsing the emitted JSON of any Document yields
that Document back — the row count, every factor code list, every level
list and code table, and every numeric value (as a 64-bit pattern,
i.e. bit-for-bit) are identical. -/
theorem document_json_round_trip (d : Document) :
    parseDocument (emitDocument d) = some d := by
  rw [emitDocument, parseDocument, decodeColumns_emit]
